import Mathlib

/-!
Verification of the pecos io module (src/pecos/io.py) against its
natural-language specification.  The module is shallowly embedded: pure
transformations become Lean functions, the external collaborators (the CSV
parser, the filesystem, the SMTP transport, the template engine) become
explicit inputs (parse outcomes, a path-to-bytes map, a server behaviour
record), and Python exceptions become Except values.  Machine floats carry
no arithmetic in any claim, so float64 cells are modelled as Option Rat
(none is the NaN missing marker).
-/

namespace PecosIO

/-! ## Generic helpers -/

/-- Bytes of a binary file, as read by open(path, "rb"). -/
abbrev Bytes := List Nat

/-- Substring test on character lists: some tail of l starts with pat.
Models the Python `in` operator on strings and the re.search of a plain
pattern such as the column filter regex in read_campbell_scientific. -/
def containsSubB (pat l : List Char) : Bool :=
  l.tails.any (fun t => pat.isPrefixOf t)

/-- Traversal of a list under Except, stopping at the first error.  Models
a Python loop whose body may raise. -/
def mapExcept (f : α → Except Unit β) : List α → Except Unit (List β)
  | [] => Except.ok []
  | a :: l =>
    match f a with
    | Except.error e => Except.error e
    | Except.ok b =>
      match mapExcept f l with
      | Except.error e => Except.error e
      | Except.ok bs => Except.ok (b :: bs)

/-- Digit-string accumulator used by the numeric parsing model. -/
def parseNatChars : List Char → Nat → Option Nat
  | [], acc => some acc
  | c :: cs, acc =>
    if c.isDigit then parseNatChars cs (acc * 10 + (c.toNat - 48)) else none

/-- Numeric literal parser.  Stands in for the parsing pandas delegates to
(to_datetime for the index, the float64 coercion for data cells): decimal
digit strings succeed, everything else fails. -/
def parseDigits (s : String) : Option Nat :=
  match s.data with
  | [] => none
  | c :: cs => parseNatChars (c :: cs) 0

/-! ## Tabular reader: read_campbell_scientific -/

/-- Float64 cell of a data frame: a numeric value or the NaN marker. -/
abbrev Cell := Option Rat

/-- Rendering of a cell by to_csv with na_rep = "NaN". -/
def renderCell : Cell → String
  | none => "NaN"
  | some v => toString v

/-- In-memory table: rows indexed by timestamps, named float64 columns.
Timestamps are clock values (Nat) produced by the timestamp parser. -/
structure DataFrame where
  index : List Nat
  columns : List String
  cells : List (List Cell)
deriving DecidableEq

/-- Raw content handed over by pd.read_csv(file, skiprows=1,
index_col=...): the header line gives the data column names, and every
following line is the raw index field plus the raw data fields. -/
structure RawCsv where
  columns : List String
  rows : List (String × List String)

/-- Model of pd.to_datetime on one raw index entry: an empty field becomes
NaT (ok none), a digit string becomes a timestamp, anything else raises. -/
def parseTimestamp (s : String) : Except Unit (Option Nat) :=
  if s = ("") then Except.ok none
  else
    match parseDigits s with
    | some n => Except.ok (some n)
    | none => Except.error ()

/-- Model of the float64 coercion on one raw data cell: an empty field
becomes NaN, a digit string becomes its value, anything else raises. -/
def parseCell (s : String) : Except Unit Cell :=
  if s = ("") then Except.ok none
  else
    match parseDigits s with
    | some n => Except.ok (some (n : Rat))
    | none => Except.error ()

/-- Column filter of read_campbell_scientific: df.filter(regex=...) with
the pattern Unnamed keeps every column whose name contains it. -/
def hasUnnamed (c : String) : Bool := containsSubB ("Unnamed").data c.data

/-- Body of the try block of read_campbell_scientific: obtain the parsed
CSV (the input Except models the pd.read_csv outcome), drop the first two
data rows (df = df[2:]), parse the index entries as timestamps, drop the
columns whose name contains Unnamed, and coerce the remaining cells to
float64.  Any failure anywhere collapses into the single except branch. -/
def readTry (input : Except Unit RawCsv) :
    Except Unit (List (Option Nat) × List String × List (List Cell)) :=
  match input with
  | Except.error e => Except.error e
  | Except.ok raw =>
    match mapExcept (fun r => parseTimestamp r.1) (raw.rows.drop 2) with
    | Except.error e => Except.error e
    | Except.ok tss =>
      match mapExcept
          (fun r => mapExcept (fun p => parseCell p.2)
            ((raw.columns.zip r.2).filter (fun p => ! hasUnnamed p.1)))
          (raw.rows.drop 2) with
      | Except.error e => Except.error e
      | Except.ok cells =>
        Except.ok (tss, raw.columns.filter (fun c => ! hasUnnamed c), cells)

/-- Python return value of read_campbell_scientific: a data frame, or the
bare `return` of the except branch, which yields None. -/
inductive ReadResult where
  | table (df : DataFrame)
  | pyNone
deriving DecidableEq

/-- Embedding of read_campbell_scientific.  On any parse failure the
except branch logs a warning and executes a bare return (Python None);
on success the rows whose index entry is NaT are dropped (df.drop(pd.NaT))
and the cleaned frame is returned.  The second component is the list of
warnings emitted. -/
def readCampbellScientific (input : Except Unit RawCsv) :
    ReadResult × List String :=
  match readTry input with
  | Except.error _ =>
    (ReadResult.pyNone, ["Cannot extract database, CSV file reader failed"])
  | Except.ok (tss, cols, cells) =>
    let kept := (tss.zip cells).filterMap (fun p => p.1.map (fun v => (v, p.2)))
    (ReadResult.table ⟨kept.map Prod.fst, cols, kept.map Prod.snd⟩, [])

/-- Ascending (non-decreasing) check on a timestamp index. -/
def ascendingB : List Nat → Bool
  | [] => true
  | [_] => true
  | a :: b :: t => decide (a ≤ b) && ascendingB (b :: t)

/-- Uniqueness check on a timestamp index. -/
def uniqueB (l : List Nat) : Bool := decide (l.dedup.length = l.length)

/-- The empty data frame, what pd.DataFrame() builds in the except branch
of read_campbell_scientific. -/
def emptyDataFrame : DataFrame := ⟨[], [], []⟩

/-- Concrete input refuting the unique-ascending part of claim C3: a well
formed CSV whose two unit rows are followed by timestamps 5, 5 and 3, in
that order, every cell numeric. -/
def csvOutOfOrder : RawCsv :=
  ⟨["A"], [(("u1"), [("9")]), (("u2"), [("9")]),
    (("5"), [("1")]), (("5"), [("2")]), (("3"), [("4")])]⟩

/-- Table that read_campbell_scientific produces from csvOutOfOrder. -/
def tableOutOfOrder : DataFrame :=
  ⟨[5, 5, 3], ["A"], [[some 1], [some 2], [some 4]]⟩

/-- Concrete valid input used by the witness of the corrected claim C3. -/
def csvValid : RawCsv :=
  ⟨["A", "Unnamed: 1"],
    [(("u1"), [("9"), ("9")]), (("u2"), [("9"), ("9")]),
      (("1"), [("5"), ("7")]), (("2"), [("6"), ("8")])]⟩

/-! ## String order and sorting

pandas sorts (sort_values, the index union of combine_first) through its
own collation; it is modelled here by the lexicographic order on the
character codes, written as a three-way comparison so that totality and
transitivity can be established once. -/

/-- Lexicographic three-way comparison of character lists by char code. -/
def strCmp : List Char → List Char → Ordering
  | [], [] => Ordering.eq
  | [], _ :: _ => Ordering.lt
  | _ :: _, [] => Ordering.gt
  | a :: as, b :: bs =>
    if a.toNat < b.toNat then Ordering.lt
    else if b.toNat < a.toNat then Ordering.gt
    else strCmp as bs

/-- Non-strict string order derived from the comparison. -/
def sLeB (a b : String) : Bool :=
  match strCmp a.data b.data with
  | Ordering.gt => false
  | _ => true

/-- Insertion into a sorted list, the auxiliary step of the sort model. -/
def ordInsert (le : α → α → Bool) (x : α) : List α → List α
  | [] => [x]
  | y :: ys => if le x y then x :: y :: ys else y :: ordInsert le x ys

/-- Sorting model for sort_values and for the sorted label union that
combine_first produces. -/
def insSort (le : α → α → Bool) : List α → List α
  | [] => []
  | x :: xs => ordInsert le x (insSort le xs)

/-! ## Metrics writer: write_metrics -/

/-- Metrics accumulated per run: rows are run-timestamp labels, columns
are metric names, cells are float64 values or NaN. -/
structure MetricsTable where
  rowLabels : List String
  colLabels : List String
  cells : List (List Cell)
deriving DecidableEq

/-- The empty table, what the except branch of write_metrics substitutes
when the prior file cannot be read. -/
def emptyMetricsTable : MetricsTable := ⟨[], [], []⟩

/-- Position of a label in a label list (first occurrence). -/
def labelIdx : List String → String → Option Nat
  | [], _ => none
  | l :: ls, x => if l = x then some 0 else (labelIdx ls x).map (· + 1)

/-- Cell lookup by labels: none when the (row, column) pair is absent,
some c when it is present with cell content c (possibly the NaN marker). -/
def MetricsTable.cell (t : MetricsTable) (r c : String) : Option Cell :=
  match labelIdx t.rowLabels r, labelIdx t.colLabels c with
  | some i, some j => t.cells[i]?.bind (fun row => row[j]?)
  | _, _ => none

/-- Sorted union of two label lists, as combine_first forms its result
index and columns. -/
def sortedUnion (a b : List String) : List String :=
  insSort sLeB ((a ++ b).dedup)

/-- One cell of DataFrame.combine_first(new, prior): the value of new
when new holds a non-null value there, otherwise the value of prior when
prior holds one, otherwise null. -/
def combinedCell (new prior : MetricsTable) (r c : String) : Cell :=
  match new.cell r c with
  | some (some v) => some v
  | _ => (prior.cell r c).join

/-- Model of metrics.combine_first(previous_metrics): the label unions,
with new non-null values taking precedence cell by cell. -/
def combineFirst (new prior : MetricsTable) : MetricsTable :=
  let rows := sortedUnion new.rowLabels prior.rowLabels
  let cols := sortedUnion new.colLabels prior.colLabels
  { rowLabels := rows
    colLabels := cols
    cells := rows.map (fun r => cols.map (fun c => combinedCell new prior r c)) }

/-- Delimited text file: the header fields, then one line per row holding
the index label and the data tokens. -/
structure CsvFile where
  header : List String
  lines : List (String × List String)
deriving DecidableEq

/-- Embedding of write_metrics.  The prior-file read outcome is an input
(none models the except branch, which substitutes an empty table); the
merged table is written by to_csv with index_label TIMESTEP and
na_rep NaN.  The index stringification (to_native_types) is the identity
here since the labels are already strings. -/
def writeMetrics (priorFile : Option MetricsTable) (metrics : MetricsTable) :
    CsvFile :=
  let previous := priorFile.getD emptyMetricsTable
  let merged := combineFirst metrics previous
  { header := ("TIMESTEP") :: merged.colLabels
    lines := merged.rowLabels.zip (merged.cells.map (fun row => row.map renderCell)) }

/-- First line whose label matches, as a reader of the written file. -/
def findLine : List (String × List String) → String → Option (List String)
  | [], _ => none
  | ln :: rest, r => if ln.1 = r then some ln.2 else findLine rest r

/-- Token of the written file at row label r and column label c (the
column is resolved against the header fields after the index label). -/
def CsvFile.token (f : CsvFile) (r c : String) : Option String :=
  match findLine f.lines r, labelIdx f.header.tail c with
  | some tokens, some j => tokens[j]?
  | _, _ => none

/-- Prior metrics file of the C2 counterexample: value 5 at (t1, a). -/
def cexPriorMetrics : MetricsTable := ⟨[("t1")], [("a")], [[some 5]]⟩

/-- New metrics table of the C2 counterexample: NaN at (t1, a). -/
def cexNewMetrics : MetricsTable := ⟨[("t1")], [("a")], [[none]]⟩

/-! ## Test results writer: write_test_results -/

/-- One row of pm.test_results: the two sort keys and the remaining
fields, each possibly missing. -/
structure TestRow where
  systemName : String
  variableName : String
  rest : List (Option String)
deriving DecidableEq

/-- The collection pm.test_results: the names of the trailing columns,
the current index, and the rows. -/
structure TestResults where
  restColumns : List String
  index : List Nat
  rows : List TestRow
deriving DecidableEq

/-- Three-way comparison on the sort key (System Name, Variable Name). -/
def rowCmp (a b : TestRow) : Ordering :=
  match strCmp a.systemName.data b.systemName.data with
  | Ordering.eq => strCmp a.variableName.data b.variableName.data
  | o => o

/-- Row order used by sort_values(['System Name', 'Variable Name']). -/
def rowLeB (a b : TestRow) : Bool :=
  match rowCmp a b with
  | Ordering.gt => false
  | _ => true

/-- The in-place mutation both writers perform on pm.test_results:
sort_values by (System Name, Variable Name) followed by the index
overwrite with np.arange(1, n+1). -/
def sortReindex (tr : TestResults) : TestResults :=
  let sorted := insSort rowLeB tr.rows
  { restColumns := tr.restColumns
    index := List.range' 1 sorted.length
    rows := sorted }

/-- Serialization of one row by to_csv with na_rep NaN. -/
def renderTestRow (r : TestRow) : List String :=
  r.systemName :: r.variableName :: r.rest.map (fun c => c.getD ("NaN"))

/-- Embedding of write_test_results: mutate the argument by sorting and
reindexing, then serialize.  The first component is the written file, the
second is the state of the callers test_results object on return. -/
def writeTestResults (tr : TestResults) : CsvFile × TestResults :=
  let tr2 := sortReindex tr
  ({ header := ("") :: ("System Name") :: ("Variable Name") :: tr.restColumns
     lines := (tr2.index.map toString).zip (tr2.rows.map renderTestRow) }, tr2)

/-! ## Monitoring report: write_monitoring_report -/

/-- The empty check of a pandas frame: true when either axis is empty. -/
def DataFrame.emptyB (df : DataFrame) : Bool :=
  df.index.isEmpty || df.columns.isEmpty

/-- Start and end strings of the report: NaN twice on an empty frame,
otherwise the stringified first and last index entries. -/
def startEndTimes (df : DataFrame) : String × String :=
  if df.emptyB then (("NaN"), ("NaN"))
  else (toString (df.index.headD 0), toString (df.index.getLastD 0))

/-- The pm argument of write_monitoring_report: the data (pm.df) and the
test results (pm.test_results). -/
structure PerformanceMonitoring where
  df : DataFrame
  testResults : TestResults
deriving DecidableEq

/-- Fields bound into the monitoring report template, as assembled by
write_monitoring_report before rendering. -/
structure ReportContent where
  startTime : String
  endTime : String
  numNotes : Nat
  notesLines : List String
  numTestResults : Nat
  testResultsSorted : TestResults
  testResultsGraphics : List String
  customGraphics : List String
  numMetrics : Nat
  metricsTbl : MetricsTable
  config : List (String × String)
deriving DecidableEq

/-- Rendered monitoring report document: the bound fields plus the
img_dic of inline-encoded images (empty when encode is off). -/
structure RenderedReport where
  content : ReportContent
  title : String
  logo : Option String
  imWidthTestResults : Nat
  imWidthCustom : Nat
  imgDic : List (String × Bytes)
deriving DecidableEq

/-- Image loop of the templates: read each referenced file as bytes
(open(im, "rb")), failing with the unreadable path; the base64 recoding
the source applies to the bytes is injective and never inspected, so the
dictionary keeps the raw bytes. -/
def readImages (fs : String → Option Bytes) :
    List String → List (String × Bytes) → Except String (List (String × Bytes))
  | [], acc => Except.ok acc
  | im :: rest, acc =>
    match fs im with
    | none => Except.error im
    | some data => readImages fs rest (acc ++ [(im, data)])

/-- Embedding of _html_template_monitoring_report: when encode is set,
read the custom graphics then the test results graphics, propagating any
read failure; then bind everything into the template. -/
def htmlTemplateMonitoringReport (fs : String → Option Bytes)
    (content : ReportContent) (title : String) (logo : Option String)
    (imWidthTestResults imWidthCustom : Nat) (encode : Bool) :
    Except String RenderedReport :=
  if encode then
    match readImages fs (content.customGraphics ++ content.testResultsGraphics) [] with
    | Except.error e => Except.error e
    | Except.ok dic =>
      Except.ok ⟨content, title, logo, imWidthTestResults, imWidthCustom, dic⟩
  else Except.ok ⟨content, title, logo, imWidthTestResults, imWidthCustom, []⟩

/-- Embedding of write_monitoring_report.  The logfile read outcome is an
input (none models the except branch, which substitutes an empty notes
table).  The function computes the start and end strings, sorts and
reindexes pm.test_results in place, binds the content and renders.  The
first component is the render outcome (an error aborts the write), the
second the state of the callers test_results object on return. -/
def writeMonitoringReport (fs : String → Option Bytes)
    (pm : PerformanceMonitoring)
    (testResultsGraphics customGraphics : List String)
    (metrics : Option MetricsTable) (title : String)
    (config : List (String × String)) (logo : Option String)
    (notesFile : Option (List String))
    (imWidthTestResults imWidthCustom : Nat) (encode : Bool) :
    Except String RenderedReport × TestResults :=
  let se := startEndTimes pm.df
  let notesLines := notesFile.getD []
  let tr2 := sortReindex pm.testResults
  let metricsTbl := metrics.getD emptyMetricsTable
  let content : ReportContent :=
    { startTime := se.1
      endTime := se.2
      numNotes := notesLines.length
      notesLines := notesLines
      numTestResults := tr2.rows.length
      testResultsSorted := tr2
      testResultsGraphics := testResultsGraphics
      customGraphics := customGraphics
      numMetrics := metricsTbl.rowLabels.length
      metricsTbl := metricsTbl
      config := config }
  (htmlTemplateMonitoringReport fs content title logo
    imWidthTestResults imWidthCustom encode, tr2)

/-! ## Notifier: send_email -/

/-- Closing tag that send_email sniffs for in the lowered body. -/
def htmlCloseTag : List Char := ("</html>").data

/-- MIME subtype choice of send_email: html when the lowered body
contains the closing tag, plain otherwise. -/
def chooseSubtype (body : String) : String :=
  if containsSubB htmlCloseTag (body.data.map Char.toLower) then ("html")
  else ("plain")

/-- Multipart message assembled by send_email before delivery.  The
attachment is already resolved to its base filename and raw bytes. -/
structure EmailMessage where
  subjectLine : String
  toField : String
  fromField : String
  contentSubtype : String
  bodyText : String
  attachmentPart : Option (String × Bytes)
deriving DecidableEq

/-- Message construction of send_email: subject, comma-joined recipients,
sender, the sniffed body subtype, and the optional attachment. -/
def buildEmailMessage (subject body : String) (recipient : List String)
    (sender : String) (attachment : Option (String × Bytes)) : EmailMessage :=
  { subjectLine := subject
    toField := String.intercalate (", ") recipient
    fromField := sender
    contentSubtype := chooseSubtype body
    bodyText := body
    attachmentPart := attachment }

/-- Steps of the SMTP session of send_email. -/
inductive SmtpStep where
  | ehlo
  | starttls
  | login
  | sendmail
  | quit
deriving DecidableEq

/-- Behaviour of the mail host: whether each step succeeds. -/
structure SmtpServer where
  ehloOk : Bool
  starttlsOk : Bool
  loginOk : Bool
  sendOk : Bool
deriving DecidableEq

/-- Outcome of one send_email delivery: the steps that ran, the warnings
emitted, and the transport result (error models a raised exception). -/
structure TransportRun where
  trace : List SmtpStep
  warnings : List String
  result : Except Unit Unit

/-- Handshake steps that execute inside the try block: an exception in a
step skips the following ones and lands in the bare except. -/
def handshakeTrace (srv : SmtpServer) : List SmtpStep :=
  if !srv.ehloOk then [SmtpStep.ehlo]
  else if !srv.starttlsOk then [SmtpStep.ehlo, SmtpStep.starttls]
  else [SmtpStep.ehlo, SmtpStep.starttls, SmtpStep.login]

/-- Embedding of the delivery part of send_email: the ehlo/starttls/login
handshake is attempted under a bare except that discards any failure
without logging; sendmail then always runs on the same session, and its
failure propagates (quit is not reached in that case). -/
def sendEmailTransport (srv : SmtpServer) : TransportRun :=
  let hs := handshakeTrace srv
  if srv.sendOk then ⟨hs ++ [SmtpStep.sendmail, SmtpStep.quit], [], Except.ok ()⟩
  else ⟨hs ++ [SmtpStep.sendmail], [], Except.error ()⟩

/-! ## Dashboard: write_dashboard -/

/-- Per-cell dashboard content; every field of the content dictionary is
optional according to the documentation of write_dashboard. -/
structure DashboardCell where
  text : Option String
  graphics : Option (List String)
  tableHtml : Option String
  link : Option String
  linkText : Option String
deriving DecidableEq

/-- Errors of the dashboard image loop: a missing dictionary key (the
(row, column) pair or its graphics entry) raises KeyError, an unreadable
file raises IOError. -/
inductive DashError where
  | keyError (row : String) (col : String)
  | ioError (path : String)
deriving DecidableEq

/-- Dictionary lookup in the content mapping. -/
def lookupCell : List ((String × String) × DashboardCell) → String × String →
    Option DashboardCell
  | [], _ => none
  | e :: rest, k => if e.1 = k then some e.2 else lookupCell rest k

/-- Reading of the graphics files of one cell. -/
def readCellImages (fs : String → Option Bytes) :
    List String → Except DashError (List (String × Bytes))
  | [] => Except.ok []
  | im :: rest =>
    match fs im with
    | none => Except.error (DashError.ioError im)
    | some d =>
      match readCellImages fs rest with
      | Except.error e => Except.error e
      | Except.ok l => Except.ok ((im, d) :: l)

/-- Iteration order of the dashboard image loop: for column in
column_names, for row in row_names, the key is (row, column). -/
def dashboardPairs (columnNames rowNames : List String) :
    List (String × String) :=
  columnNames.flatMap (fun c => rowNames.map (fun r => (r, c)))

/-- Image loop of _html_template_dashboard over the laid-out pairs:
content[row, column] and its graphics entry are looked up unconditionally
(KeyError when absent), then every referenced file is read. -/
def encodePairs (fs : String → Option Bytes)
    (content : List ((String × String) × DashboardCell)) :
    List (String × String) → Except DashError (List (String × Bytes))
  | [] => Except.ok []
  | rc :: rest =>
    match lookupCell content rc with
    | none => Except.error (DashError.keyError rc.1 rc.2)
    | some cell =>
      match cell.graphics with
      | none => Except.error (DashError.keyError rc.1 rc.2)
      | some gs =>
        match readCellImages fs gs with
        | Except.error e => Except.error e
        | Except.ok imgs =>
          match encodePairs fs content rest with
          | Except.error e => Except.error e
          | Except.ok more => Except.ok (imgs ++ more)

/-- Rendered dashboard document. -/
structure RenderedDashboard where
  columnNames : List String
  rowNames : List String
  contentCells : List ((String × String) × DashboardCell)
  title : String
  footnote : String
  imgDic : List (String × Bytes)

/-- Embedding of _html_template_dashboard: when encode is set, the image
loop runs over row_names x column_names before rendering; any of its
errors propagates and aborts the dashboard. -/
def htmlTemplateDashboard (fs : String → Option Bytes)
    (columnNames rowNames : List String)
    (content : List ((String × String) × DashboardCell))
    (title footnote : String) (encode : Bool) :
    Except DashError RenderedDashboard :=
  if encode then
    match encodePairs fs content (dashboardPairs columnNames rowNames) with
    | Except.error e => Except.error e
    | Except.ok dic =>
      Except.ok ⟨columnNames, rowNames, content, title, footnote, dic⟩
  else Except.ok ⟨columnNames, rowNames, content, title, footnote, []⟩

/-! ## Helper lemmas -/

theorem mapExcept_ok_length (f : α → Except Unit β) (l : List α) (ys : List β)
    (h : mapExcept f l = Except.ok ys) : ys.length = l.length := by
  induction l generalizing ys with
  | nil =>
    simp only [mapExcept, Except.ok.injEq] at h
    subst h
    rfl
  | cons a t ih =>
    unfold mapExcept at h
    cases hfa : f a with
    | error e => rw [hfa] at h; exact absurd h (by simp)
    | ok b =>
      rw [hfa] at h
      cases hmt : mapExcept f t with
      | error e => rw [hmt] at h; exact absurd h (by simp)
      | ok bs =>
        rw [hmt] at h
        simp only [Except.ok.injEq] at h
        subst h
        simp [ih bs hmt]

theorem zip_some_filterMap (ts : List α) (cs : List β) :
    ((ts.map some).zip cs).filterMap (fun p => p.1.map (fun v => (v, p.2))) =
      ts.zip cs := by
  induction ts generalizing cs with
  | nil => simp
  | cons t tl ih =>
    cases cs with
    | nil => simp
    | cons c cl => simp [ih]

/-! ## Claim C1 -/

/-- Claim C1 (code_bug evidence): on a failing parse the except branch of
read_campbell_scientific logs the warning but ends in a bare return, so
the caller receives the Python None, which is not an empty table (nor any
table): emptiness cannot serve as the failure signal. -/
theorem readCampbellScientific_failure_returns_none :
    readCampbellScientific (Except.error ()) =
      (ReadResult.pyNone, ["Cannot extract database, CSV file reader failed"]) ∧
    ∀ df : DataFrame, ReadResult.pyNone ≠ ReadResult.table df := by
  refine ⟨rfl, ?_⟩
  intro df h
  exact absurd h (by simp)

/-! ## Claim C3 -/

/-- Claim C3 counterexample: a valid CSV whose timestamps are 5, 5, 3
parses without failure, yet the returned index is neither unique nor
ascending: the reader never sorts nor deduplicates. -/
theorem readCampbellScientific_index_unsorted :
    (readCampbellScientific (Except.ok csvOutOfOrder)).fst =
      ReadResult.table tableOutOfOrder ∧
    uniqueB tableOutOfOrder.index = false ∧
    ascendingB tableOutOfOrder.index = false := by
  refine ⟨rfl, rfl, rfl⟩

/-- Claim C3 as amended: for every valid CSV (every timestamp of the rows
after the two dropped unit rows parses to a time, every kept cell coerces
to float64) the reader returns exactly N rows, float64-typed by
construction, whose index is the parsed timestamps in file order, with no
uniqueness or ordering guarantee, and emits no warning. -/
theorem readCampbellScientific_valid_shape (raw : RawCsv) (tss : List Nat)
    (cells : List (List Cell))
    (hts : mapExcept (fun r => parseTimestamp r.1) (raw.rows.drop 2) =
      Except.ok (tss.map some))
    (hcells : mapExcept
        (fun r => mapExcept (fun p => parseCell p.2)
          ((raw.columns.zip r.2).filter (fun p => ! hasUnnamed p.1)))
        (raw.rows.drop 2) = Except.ok cells) :
    readCampbellScientific (Except.ok raw) =
      (ReadResult.table
        ⟨tss, raw.columns.filter (fun c => ! hasUnnamed c), cells⟩, []) ∧
    tss.length = (raw.rows.drop 2).length := by
  have hlen1 : tss.length = (raw.rows.drop 2).length := by
    have := mapExcept_ok_length _ _ _ hts
    simpa using this
  have hlen2 : cells.length = (raw.rows.drop 2).length :=
    mapExcept_ok_length _ _ _ hcells
  refine ⟨?_, hlen1⟩
  have h1 : readTry (Except.ok raw) =
      Except.ok (tss.map some, raw.columns.filter (fun c => ! hasUnnamed c), cells) := by
    unfold readTry
    dsimp only
    rw [hts, hcells]
  unfold readCampbellScientific
  rw [h1]
  simp only [zip_some_filterMap]
  rw [List.map_fst_zip tss cells (by omega), List.map_snd_zip tss cells (by omega)]

/-- Witness for the amended claim C3 at a concrete valid CSV with one
Unnamed column and two data rows. -/
theorem readCampbellScientific_valid_shape_witness :
    readCampbellScientific (Except.ok csvValid) =
      (ReadResult.table
        ⟨[1, 2], csvValid.columns.filter (fun c => ! hasUnnamed c),
          [[some 5], [some 6]]⟩, []) ∧
    ([1, 2] : List Nat).length = (csvValid.rows.drop 2).length :=
  readCampbellScientific_valid_shape csvValid [1, 2] [[some 5], [some 6]]
    (by rfl) (by rfl)

/-! ## Sorting and lookup lemmas -/

theorem ordInsert_perm (le : α → α → Bool) (x : α) (l : List α) :
    (ordInsert le x l).Perm (x :: l) := by
  induction l with
  | nil => exact List.Perm.refl _
  | cons y ys ih =>
    unfold ordInsert
    by_cases h : le x y = true
    · rw [if_pos h]
    · rw [if_neg h]
      exact (ih.cons y).trans (List.Perm.swap x y ys)

theorem insSort_perm (le : α → α → Bool) (l : List α) :
    (insSort le l).Perm l := by
  induction l with
  | nil => exact List.Perm.refl _
  | cons x xs ih =>
    unfold insSort
    exact (ordInsert_perm le x _).trans (ih.cons x)

theorem sortedUnion_mem (a b : List String) (x : String) :
    x ∈ sortedUnion a b ↔ x ∈ a ∨ x ∈ b := by
  unfold sortedUnion
  rw [(insSort_perm _ _).mem_iff, List.mem_dedup, List.mem_append]

theorem labelIdx_mem (ls : List String) (x : String) (h : x ∈ ls) :
    ∃ j, labelIdx ls x = some j := by
  induction ls with
  | nil => cases h
  | cons l t ih =>
    unfold labelIdx
    by_cases hl : l = x
    · exact ⟨0, by rw [if_pos hl]⟩
    · have hx : x ∈ t := by
        cases List.mem_cons.mp h with
        | inl he => exact absurd he.symm hl
        | inr ht => exact ht
      obtain ⟨j, hj⟩ := ih hx
      exact ⟨j + 1, by rw [if_neg hl, hj]; rfl⟩

theorem labelIdx_get (ls : List String) (x : String) (j : Nat)
    (h : labelIdx ls x = some j) : ls[j]? = some x := by
  induction ls generalizing j with
  | nil => simp [labelIdx] at h
  | cons l t ih =>
    unfold labelIdx at h
    by_cases hl : l = x
    · rw [if_pos hl] at h
      simp only [Option.some.injEq] at h
      subst h
      simp [hl]
    · rw [if_neg hl] at h
      cases hj : labelIdx t x with
      | none => rw [hj] at h; simp at h
      | some j' =>
        rw [hj] at h
        simp only [Option.map_some', Option.some.injEq] at h
        subst h
        simpa using ih j' hj

theorem findLine_map (g : String → List String) (rows : List String) (r : String)
    (hr : r ∈ rows) :
    findLine (rows.map (fun x => (x, g x))) r = some (g r) := by
  induction rows with
  | nil => cases hr
  | cons a t ih =>
    simp only [List.map_cons]
    unfold findLine
    dsimp only
    by_cases h : a = r
    · subst h
      rw [if_pos rfl]
    · rw [if_neg h]
      have hx : r ∈ t := by
        cases List.mem_cons.mp hr with
        | inl he => exact absurd he.symm h
        | inr ht => exact ht
      exact ih hx

theorem zip_self_map (l : List α) (h : α → β) :
    l.zip (l.map h) = l.map (fun x => (x, h x)) := by
  induction l with
  | nil => rfl
  | cons x xs ih => simp [ih]

/-! ## Claim C2 -/

/-- Claim C2 counterexample: the prior file holds 5 at (t1, a) and the
new table holds the missing marker there; the written file retains the
prior token 5 at that overlapping pair, even though the new value (NaN)
was supposed to win. -/
theorem writeMetrics_prior_value_survives :
    (writeMetrics (some cexPriorMetrics) cexNewMetrics).token ("t1") ("a") =
      some ("5") ∧
    cexNewMetrics.cell ("t1") ("a") = some none ∧
    renderCell none = ("NaN") ∧
    (("5") : String) ≠ ("NaN") := by
  refine ⟨rfl, rfl, rfl, by decide⟩

/-- Claim C2 as amended: the file written over a prior file holds the
union of the prior and new (row, column) cells under the TIMESTEP index
label; on every pair the token is the new value when the new table holds
a non-missing value there, otherwise the prior non-missing value, and the
literal NaN when both are missing; so the new table wins only with
non-missing values, a missing new value leaves the prior value in place. -/
theorem writeMetrics_merge (priorT newT : MetricsTable) (r c : String)
    (hr : r ∈ newT.rowLabels ∨ r ∈ priorT.rowLabels)
    (hc : c ∈ newT.colLabels ∨ c ∈ priorT.colLabels) :
    (writeMetrics (some priorT) newT).header =
      ("TIMESTEP") :: sortedUnion newT.colLabels priorT.colLabels ∧
    (writeMetrics (some priorT) newT).token r c =
      some (match newT.cell r c with
        | some (some v) => toString v
        | _ =>
          match (priorT.cell r c).join with
          | some v => toString v
          | none => ("NaN")) := by
  have hr2 : r ∈ sortedUnion newT.rowLabels priorT.rowLabels :=
    (sortedUnion_mem _ _ _).mpr hr
  have hc2 : c ∈ sortedUnion newT.colLabels priorT.colLabels :=
    (sortedUnion_mem _ _ _).mpr hc
  constructor
  · rfl
  · unfold writeMetrics combineFirst
    dsimp only [Option.getD]
    unfold CsvFile.token
    dsimp only
    rw [List.map_map, zip_self_map]
    simp only [Function.comp_def, List.map_map]
    rw [findLine_map
      (fun r' => (sortedUnion newT.colLabels priorT.colLabels).map
        (fun c' => renderCell (combinedCell newT priorT r' c'))) _ r hr2]
    obtain ⟨j, hj⟩ := labelIdx_mem _ c hc2
    simp only [List.tail_cons]
    rw [hj]
    dsimp only
    have hcj := labelIdx_get _ c j hj
    rw [List.getElem?_map, hcj]
    dsimp only [Option.map_some']
    cases hnc : newT.cell r c with
    | none =>
      cases hpc : priorT.cell r c with
      | none => simp [combinedCell, renderCell, hnc, hpc, Option.join]
      | some pv =>
        cases pv with
        | none => simp [combinedCell, renderCell, hnc, hpc, Option.join]
        | some w => simp [combinedCell, renderCell, hnc, hpc, Option.join]
    | some cv =>
      cases cv with
      | none =>
        cases hpc : priorT.cell r c with
        | none => simp [combinedCell, renderCell, hnc, hpc, Option.join]
        | some pv =>
          cases pv with
          | none => simp [combinedCell, renderCell, hnc, hpc, Option.join]
          | some w => simp [combinedCell, renderCell, hnc, hpc, Option.join]
      | some v => simp [combinedCell, renderCell, hnc]

/-- Witness for the amended claim C2 at the concrete overlapping pair of
the counterexample tables. -/
theorem writeMetrics_merge_witness :
    (writeMetrics (some cexPriorMetrics) cexNewMetrics).header =
      ("TIMESTEP") :: sortedUnion cexNewMetrics.colLabels cexPriorMetrics.colLabels ∧
    (writeMetrics (some cexPriorMetrics) cexNewMetrics).token ("t1") ("a") =
      some (match cexNewMetrics.cell ("t1") ("a") with
        | some (some v) => toString v
        | _ =>
          match (cexPriorMetrics.cell ("t1") ("a")).join with
          | some v => toString v
          | none => ("NaN")) :=
  writeMetrics_merge cexPriorMetrics cexNewMetrics ("t1") ("a")
    (Or.inl (by simp [cexNewMetrics])) (Or.inl (by simp [cexNewMetrics]))

/-! ## Order lemmas for the row sort -/

theorem strCmp_swap (a b : List Char) : strCmp b a = (strCmp a b).swap := by
  induction a generalizing b with
  | nil =>
    cases b with
    | nil => rfl
    | cons y ys => rfl
  | cons x xs ih =>
    cases b with
    | nil => rfl
    | cons y ys =>
      unfold strCmp
      rcases Nat.lt_trichotomy x.toNat y.toNat with h | h | h
      · rw [if_neg (by omega), if_pos h, if_pos h]
        rfl
      · rw [if_neg (by omega), if_neg (by omega), if_neg (by omega),
          if_neg (by omega)]
        exact ih ys
      · rw [if_pos h, if_neg (by omega), if_pos h]
        rfl

theorem strCmp_lt_trans (a b c : List Char) (h1 : strCmp a b = Ordering.lt)
    (h2 : strCmp b c = Ordering.lt) : strCmp a c = Ordering.lt := by
  induction a generalizing b c with
  | nil =>
    cases b with
    | nil => exact absurd h1 (by simp [strCmp])
    | cons y ys =>
      cases c with
      | nil => exact absurd h2 (by simp [strCmp])
      | cons z zs => simp [strCmp]
  | cons x xs ih =>
    cases b with
    | nil => exact absurd h1 (by simp [strCmp])
    | cons y ys =>
      cases c with
      | nil => exact absurd h2 (by simp [strCmp])
      | cons z zs =>
        unfold strCmp at h1 h2 ⊢
        by_cases hxy : x.toNat < y.toNat
        · by_cases hyz : y.toNat < z.toNat
          · rw [if_pos (by omega)]
          · rw [if_neg hyz] at h2
            by_cases hzy : z.toNat < y.toNat
            · rw [if_pos hzy] at h2; exact absurd h2 (by simp)
            · rw [if_pos (by omega)]
        · rw [if_neg hxy] at h1
          by_cases hyx : y.toNat < x.toNat
          · rw [if_pos hyx] at h1; exact absurd h1 (by simp)
          · rw [if_neg hyx] at h1
            by_cases hyz : y.toNat < z.toNat
            · rw [if_pos (by omega)]
            · rw [if_neg hyz] at h2
              by_cases hzy : z.toNat < y.toNat
              · rw [if_pos hzy] at h2; exact absurd h2 (by simp)
              · rw [if_neg hzy] at h2
                rw [if_neg (by omega), if_neg (by omega)]
                exact ih ys zs h1 h2

theorem strCmp_eq_congr (a b : List Char) (h : strCmp a b = Ordering.eq) :
    ∀ x, strCmp a x = strCmp b x := by
  induction a generalizing b with
  | nil =>
    cases b with
    | nil => intro x; rfl
    | cons y ys => exact absurd h (by simp [strCmp])
  | cons xh xt ih =>
    cases b with
    | nil => exact absurd h (by simp [strCmp])
    | cons y ys =>
      unfold strCmp at h
      by_cases h1 : xh.toNat < y.toNat
      · rw [if_pos h1] at h; exact absurd h (by simp)
      · rw [if_neg h1] at h
        by_cases h2 : y.toNat < xh.toNat
        · rw [if_pos h2] at h; exact absurd h (by simp)
        · rw [if_neg h2] at h
          intro x
          cases x with
          | nil => rfl
          | cons z zs =>
            unfold strCmp
            have hxy : xh.toNat = y.toNat := by omega
            rw [hxy]
            by_cases h3 : y.toNat < z.toNat
            · rw [if_pos h3, if_pos h3]
            · rw [if_neg h3, if_neg h3]
              by_cases h4 : z.toNat < y.toNat
              · rw [if_pos h4, if_pos h4]
              · rw [if_neg h4, if_neg h4]
                exact ih ys h zs

theorem strCmp_eq_congr_right (a b : List Char) (h : strCmp a b = Ordering.eq) :
    ∀ x, strCmp x a = strCmp x b := by
  intro x
  rw [strCmp_swap a x, strCmp_swap b x, strCmp_eq_congr a b h x]

theorem rowCmp_swap (a b : TestRow) : rowCmp b a = (rowCmp a b).swap := by
  unfold rowCmp
  rw [strCmp_swap a.systemName.data b.systemName.data]
  cases strCmp a.systemName.data b.systemName.data with
  | lt => rfl
  | gt => rfl
  | eq => exact strCmp_swap _ _

theorem rowCmp_lt_trans (a b c : TestRow) (h1 : rowCmp a b = Ordering.lt)
    (h2 : rowCmp b c = Ordering.lt) : rowCmp a c = Ordering.lt := by
  unfold rowCmp at h1 h2 ⊢
  cases hab : strCmp a.systemName.data b.systemName.data with
  | gt => rw [hab] at h1; exact absurd h1 (by simp)
  | lt =>
    cases hbc : strCmp b.systemName.data c.systemName.data with
    | gt => rw [hbc] at h2; exact absurd h2 (by simp)
    | lt => rw [strCmp_lt_trans _ _ _ hab hbc]
    | eq =>
      have hac : strCmp a.systemName.data c.systemName.data = Ordering.lt := by
        rw [← strCmp_eq_congr_right _ _ hbc a.systemName.data]
        exact hab
      rw [hac]
  | eq =>
    rw [hab] at h1
    cases hbc : strCmp b.systemName.data c.systemName.data with
    | gt => rw [hbc] at h2; exact absurd h2 (by simp)
    | lt =>
      have hac : strCmp a.systemName.data c.systemName.data = Ordering.lt := by
        rw [strCmp_eq_congr _ _ hab c.systemName.data]
        exact hbc
      rw [hac]
    | eq =>
      rw [hbc] at h2
      have hac : strCmp a.systemName.data c.systemName.data = Ordering.eq := by
        rw [strCmp_eq_congr _ _ hab c.systemName.data]
        exact hbc
      rw [hac]
      exact strCmp_lt_trans _ _ _ h1 h2

theorem rowCmp_eq_congr (a b : TestRow) (h : rowCmp a b = Ordering.eq) :
    ∀ x, rowCmp a x = rowCmp b x := by
  unfold rowCmp at h ⊢
  cases hab : strCmp a.systemName.data b.systemName.data with
  | lt => rw [hab] at h; exact absurd h (by simp)
  | gt => rw [hab] at h; exact absurd h (by simp)
  | eq =>
    rw [hab] at h
    intro x
    rw [strCmp_eq_congr _ _ hab x.systemName.data]
    cases strCmp b.systemName.data x.systemName.data with
    | lt => rfl
    | gt => rfl
    | eq => exact strCmp_eq_congr _ _ h x.variableName.data

theorem rowCmp_eq_congr_right (a b : TestRow) (h : rowCmp a b = Ordering.eq) :
    ∀ x, rowCmp x a = rowCmp x b := by
  intro x
  rw [rowCmp_swap a x, rowCmp_swap b x, rowCmp_eq_congr a b h x]

theorem rowLeB_total (a b : TestRow) : rowLeB a b = true ∨ rowLeB b a = true := by
  unfold rowLeB
  cases hab : rowCmp a b with
  | lt => exact Or.inl rfl
  | eq => exact Or.inl rfl
  | gt =>
    right
    rw [rowCmp_swap a b, hab]
    rfl

theorem rowLeB_trans (a b c : TestRow) (h1 : rowLeB a b = true)
    (h2 : rowLeB b c = true) : rowLeB a c = true := by
  unfold rowLeB at h1 h2 ⊢
  cases hab : rowCmp a b with
  | gt => rw [hab] at h1; exact absurd h1 (by simp)
  | lt =>
    cases hbc : rowCmp b c with
    | gt => rw [hbc] at h2; exact absurd h2 (by simp)
    | lt => rw [rowCmp_lt_trans a b c hab hbc]
    | eq =>
      have hac : rowCmp a c = Ordering.lt := by
        rw [← rowCmp_eq_congr_right b c hbc a]
        exact hab
      rw [hac]
  | eq =>
    cases hbc : rowCmp b c with
    | gt => rw [hbc] at h2; exact absurd h2 (by simp)
    | lt =>
      have hac : rowCmp a c = Ordering.lt := by
        rw [rowCmp_eq_congr a b hab c]
        exact hbc
      rw [hac]
    | eq =>
      have hac : rowCmp a c = Ordering.eq := by
        rw [rowCmp_eq_congr a b hab c]
        exact hbc
      rw [hac]

theorem ordInsert_sorted (le : α → α → Bool)
    (htot : ∀ a b, le a b = true ∨ le b a = true)
    (htrans : ∀ a b c, le a b = true → le b c = true → le a c = true)
    (x : α) (l : List α)
    (hl : List.Pairwise (fun a b => le a b = true) l) :
    List.Pairwise (fun a b => le a b = true) (ordInsert le x l) := by
  induction l with
  | nil => simp [ordInsert]
  | cons y ys ih =>
    rw [List.pairwise_cons] at hl
    obtain ⟨hy, hys⟩ := hl
    unfold ordInsert
    by_cases hxy : le x y = true
    · rw [if_pos hxy]
      refine List.Pairwise.cons ?_ (List.Pairwise.cons hy hys)
      intro z hz
      cases List.mem_cons.mp hz with
      | inl he => rw [he]; exact hxy
      | inr hzys => exact htrans x y z hxy (hy z hzys)
    · rw [if_neg hxy]
      have hyx : le y x = true := (htot x y).resolve_left hxy
      refine List.Pairwise.cons ?_ (ih hys)
      intro z hz
      have hz2 : z = x ∨ z ∈ ys :=
        List.mem_cons.mp ((ordInsert_perm le x ys).mem_iff.mp hz)
      cases hz2 with
      | inl he => rw [he]; exact hyx
      | inr hzys => exact hy z hzys

theorem insSort_sorted (le : α → α → Bool)
    (htot : ∀ a b, le a b = true ∨ le b a = true)
    (htrans : ∀ a b c, le a b = true → le b c = true → le a c = true)
    (l : List α) :
    List.Pairwise (fun a b => le a b = true) (insSort le l) := by
  induction l with
  | nil => simp [insSort]
  | cons x xs ih =>
    unfold insSort
    exact ordInsert_sorted le htot htrans x _ ih

/-! ## Claim C4 -/

/-- Claim C4: write_test_results serializes the rows sorted by
(System Name, Variable Name) and re-indexed by the dense 1-based sequence
1..N, with every missing field rendered as the literal NaN token. -/
theorem writeTestResults_sorted_reindexed (tr : TestResults) :
    ∃ sortedRows : List TestRow,
      sortedRows.Perm tr.rows ∧
      List.Pairwise (fun a b => rowLeB a b = true) sortedRows ∧
      (writeTestResults tr).fst.lines.map Prod.fst =
        (List.range' 1 tr.rows.length).map toString ∧
      (writeTestResults tr).fst.lines.map Prod.snd = sortedRows.map renderTestRow ∧
      ∀ row ∈ sortedRows, renderTestRow row =
        row.systemName :: row.variableName ::
          row.rest.map (fun cl =>
            match cl with
            | none => ("NaN")
            | some s => s) := by
  have hlen : (insSort rowLeB tr.rows).length = tr.rows.length :=
    (insSort_perm _ _).length_eq
  refine ⟨insSort rowLeB tr.rows, insSort_perm _ _,
    insSort_sorted _ rowLeB_total rowLeB_trans _, ?_, ?_, ?_⟩
  · unfold writeTestResults sortReindex
    dsimp only
    rw [List.map_fst_zip]
    · rw [hlen]
    · simp [hlen]
  · unfold writeTestResults sortReindex
    dsimp only
    rw [List.map_snd_zip]
    simp [hlen]
  · intro row _
    unfold renderTestRow
    refine congrArg (fun l => row.systemName :: row.variableName :: l) ?_
    induction row.rest with
    | nil => rfl
    | cons a t ih => cases a <;> simp [ih]

/-! ## Claim C9 -/

/-- Claim C9: both write_test_results and write_monitoring_report mutate
the callers test_results object in place: on return the collection is the
sorted (by System Name then Variable Name) permutation of its rows with
the index overwritten by 1..N, whatever its state on entry was. -/
theorem writers_mutate_test_results (tr : TestResults)
    (fs : String → Option Bytes) (pm : PerformanceMonitoring)
    (trg cg : List String) (metrics : Option MetricsTable) (title : String)
    (config : List (String × String)) (logo : Option String)
    (notes : Option (List String)) (w1 w2 : Nat) (encode : Bool) :
    ((writeTestResults tr).snd.rows.Perm tr.rows ∧
      List.Pairwise (fun a b => rowLeB a b = true) (writeTestResults tr).snd.rows ∧
      (writeTestResults tr).snd.index = List.range' 1 tr.rows.length) ∧
    ((writeMonitoringReport fs pm trg cg metrics title config logo notes
        w1 w2 encode).snd.rows.Perm pm.testResults.rows ∧
      List.Pairwise (fun a b => rowLeB a b = true)
        (writeMonitoringReport fs pm trg cg metrics title config logo notes
          w1 w2 encode).snd.rows ∧
      (writeMonitoringReport fs pm trg cg metrics title config logo notes
        w1 w2 encode).snd.index = List.range' 1 pm.testResults.rows.length) := by
  constructor
  · refine ⟨insSort_perm _ _, insSort_sorted _ rowLeB_total rowLeB_trans _, ?_⟩
    unfold writeTestResults sortReindex
    dsimp only
    rw [(insSort_perm rowLeB tr.rows).length_eq]
  · refine ⟨insSort_perm _ _, insSort_sorted _ rowLeB_total rowLeB_trans _, ?_⟩
    unfold writeMonitoringReport sortReindex
    dsimp only
    rw [(insSort_perm rowLeB pm.testResults.rows).length_eq]

/-! ## Claim C5 -/

theorem readImages_error (fs : String → Option Bytes) (ims : List String)
    (acc : List (String × Bytes)) (im : String) (him : im ∈ ims)
    (hfs : fs im = none) : ∃ e, readImages fs ims acc = Except.error e := by
  revert him
  induction ims generalizing acc with
  | nil => intro him; cases him
  | cons a t ih =>
    intro him
    unfold readImages
    cases hfa : fs a with
    | none => exact ⟨a, rfl⟩
    | some d =>
      cases List.mem_cons.mp him with
      | inl he =>
        rw [he, hfa] at hfs
        exact absurd hfs (by simp)
      | inr ht => exact ih _ ht

/-- Claim C5: with encode requested, an unreadable referenced graphics
file (in either graphics list) makes write_monitoring_report propagate an
error and abort: no rendered report is produced, the image is never
silently omitted. -/
theorem monitoringReport_unreadable_image_aborts (fs : String → Option Bytes)
    (pm : PerformanceMonitoring) (trg cg : List String)
    (metrics : Option MetricsTable) (title : String)
    (config : List (String × String)) (logo : Option String)
    (notes : Option (List String)) (w1 w2 : Nat) (im : String)
    (him : im ∈ cg ∨ im ∈ trg) (hfs : fs im = none) :
    ∃ e, (writeMonitoringReport fs pm trg cg metrics title config logo notes
      w1 w2 true).fst = Except.error e := by
  have him2 : im ∈ cg ++ trg := List.mem_append.mpr him
  obtain ⟨e, he⟩ := readImages_error fs (cg ++ trg) [] im him2 hfs
  refine ⟨e, ?_⟩
  unfold writeMonitoringReport htmlTemplateMonitoringReport
  dsimp only
  rw [he, if_pos rfl]

/-- Concrete monitoring input for the report witnesses. -/
def pmEmpty : PerformanceMonitoring := ⟨emptyDataFrame, ⟨[], [], []⟩⟩

/-- Witness for claim C5: one custom graphic whose file is unreadable. -/
theorem monitoringReport_unreadable_image_aborts_witness :
    ∃ e, (writeMonitoringReport (fun _ => none) pmEmpty [] [("img.png")] none
      ("t") [] none none 700 700 true).fst = Except.error e :=
  monitoringReport_unreadable_image_aborts (fun _ => none) pmEmpty []
    [("img.png")] none ("t") [] none none 700 700 ("img.png")
    (Or.inl (by simp)) rfl

/-! ## Claim C8 -/

/-- Claim C8: with an empty data table, write_monitoring_report reports
the start and end time strings as NaN and (with no inline encoding
requested) completes without raising. -/
theorem monitoringReport_empty_table_nan (fs : String → Option Bytes)
    (pm : PerformanceMonitoring) (trg cg : List String)
    (metrics : Option MetricsTable) (title : String)
    (config : List (String × String)) (logo : Option String)
    (notes : Option (List String)) (w1 w2 : Nat)
    (hempty : pm.df.emptyB = true) :
    startEndTimes pm.df = (("NaN"), ("NaN")) ∧
    ∃ rep : RenderedReport,
      (writeMonitoringReport fs pm trg cg metrics title config logo notes
        w1 w2 false).fst = Except.ok rep ∧
      rep.content.startTime = ("NaN") ∧ rep.content.endTime = ("NaN") := by
  have hse : startEndTimes pm.df = (("NaN"), ("NaN")) := by
    unfold startEndTimes
    rw [if_pos hempty]
  refine ⟨hse, ⟨⟨⟨(startEndTimes pm.df).1, (startEndTimes pm.df).2,
    (notes.getD []).length, notes.getD [],
    (insSort rowLeB pm.testResults.rows).length, sortReindex pm.testResults,
    trg, cg, (metrics.getD emptyMetricsTable).rowLabels.length,
    metrics.getD emptyMetricsTable, config⟩, title, logo, w1, w2, []⟩,
    rfl, ?_, ?_⟩⟩
  · show (startEndTimes pm.df).1 = ("NaN")
    rw [hse]
  · show (startEndTimes pm.df).2 = ("NaN")
    rw [hse]

/-- Witness for claim C8 at a concrete empty data table. -/
theorem monitoringReport_empty_table_nan_witness :
    startEndTimes pmEmpty.df = (("NaN"), ("NaN")) ∧
    ∃ rep : RenderedReport,
      (writeMonitoringReport (fun _ => none) pmEmpty [] [] none ("t") [] none
        none 700 700 false).fst = Except.ok rep ∧
      rep.content.startTime = ("NaN") ∧ rep.content.endTime = ("NaN") :=
  monitoringReport_empty_table_nan (fun _ => none) pmEmpty [] [] none ("t")
    [] none none 700 700 rfl

/-! ## Claim C6 -/

theorem containsSubB_iff (pat l : List Char) :
    containsSubB pat l = true ↔ ∃ pre post, l = pre ++ (pat ++ post) := by
  unfold containsSubB
  rw [List.any_eq_true]
  constructor
  · rintro ⟨t, ht, hp⟩
    rw [List.mem_tails] at ht
    rw [List.isPrefixOf_iff_prefix] at hp
    obtain ⟨post, hpost⟩ := hp
    obtain ⟨pre, hpre⟩ := ht
    exact ⟨pre, post, by rw [← hpre, ← hpost]⟩
  · rintro ⟨pre, post, rfl⟩
    exact ⟨pat ++ post, (List.mem_tails _ _).mpr ⟨pre, rfl⟩,
      List.isPrefixOf_iff_prefix.mpr ⟨post, rfl⟩⟩

theorem lower_decomp (body pre post : List Char)
    (h : body.map Char.toLower = pre ++ (htmlCloseTag ++ post)) :
    ∃ b1 b2 b3, body = b1 ++ (b2 ++ b3) ∧ b2.map Char.toLower = htmlCloseTag := by
  rw [List.map_eq_append_iff] at h
  obtain ⟨l1, l2, rfl, h1, h2⟩ := h
  rw [List.map_eq_append_iff] at h2
  obtain ⟨m1, m2, rfl, hm1, hm2⟩ := h2
  exact ⟨l1, m1, m2, rfl, hm1⟩

/-- Claim C6: send_email selects the html MIME subtype exactly when the
body contains the closing html tag in some letter case, and the plain
subtype otherwise. -/
theorem sendEmail_mime_selection (subject body sender : String)
    (recipient : List String) (attachment : Option (String × Bytes)) :
    ((buildEmailMessage subject body recipient sender attachment).contentSubtype
        = ("html") ↔
      ∃ pre mid post, body.data = pre ++ (mid ++ post) ∧
        mid.map Char.toLower = htmlCloseTag) ∧
    ((buildEmailMessage subject body recipient sender attachment).contentSubtype
        = ("plain") ↔
      ¬ ∃ pre mid post, body.data = pre ++ (mid ++ post) ∧
        mid.map Char.toLower = htmlCloseTag) := by
  have key : containsSubB htmlCloseTag (body.data.map Char.toLower) = true ↔
      ∃ pre mid post, body.data = pre ++ (mid ++ post) ∧
        mid.map Char.toLower = htmlCloseTag := by
    rw [containsSubB_iff]
    constructor
    · rintro ⟨pre, post, hsplit⟩
      exact lower_decomp body.data pre post hsplit
    · rintro ⟨pre, mid, post, hb, hmid⟩
      refine ⟨pre.map Char.toLower, post.map Char.toLower, ?_⟩
      rw [hb]
      simp [hmid]
  unfold buildEmailMessage chooseSubtype
  dsimp only
  by_cases hc : containsSubB htmlCloseTag (body.data.map Char.toLower) = true
  · rw [if_pos hc]
    refine ⟨⟨fun _ => key.mp hc, fun _ => rfl⟩, ?_, ?_⟩
    · intro hpl
      exact absurd hpl (by decide)
    · intro hnp
      exact absurd (key.mp hc) hnp
  · rw [if_neg hc]
    refine ⟨⟨?_, ?_⟩, fun _ hp => hc (key.mpr hp), fun _ => rfl⟩
    · intro hh
      exact absurd hh (by decide)
    · intro hp
      exact absurd (key.mpr hp) hc

/-! ## Claim C7 -/

/-- Claim C7: every failure inside the ehlo-starttls-login handshake of
send_email is swallowed with no warning, leaving the transport result
exactly what it would be with a fully successful handshake; sendmail is
always attempted on the same session, and only its failure propagates. -/
theorem sendEmail_handshake_swallowed (srv : SmtpServer) :
    SmtpStep.sendmail ∈ (sendEmailTransport srv).trace ∧
    (sendEmailTransport srv).warnings = [] ∧
    ((sendEmailTransport srv).result = Except.error () ↔ srv.sendOk = false) ∧
    (sendEmailTransport srv).result =
      (sendEmailTransport ⟨true, true, true, srv.sendOk⟩).result := by
  rcases srv with ⟨e, st, l, s⟩
  cases s <;> cases e <;> cases st <;> cases l <;>
    simp [sendEmailTransport, handshakeTrace]

/-! ## Claim C10 -/

theorem readCellImages_ok (fs : String → Option Bytes) (gs : List String)
    (hread : ∀ p, fs p ≠ none) :
    ∃ l, readCellImages fs gs = Except.ok l := by
  induction gs with
  | nil => exact ⟨[], rfl⟩
  | cons im rest ih =>
    unfold readCellImages
    cases hfa : fs im with
    | none => exact absurd hfa (hread im)
    | some d =>
      obtain ⟨l, hl⟩ := ih
      rw [hl]
      exact ⟨(im, d) :: l, rfl⟩

theorem encodePairs_keyError (fs : String → Option Bytes)
    (content : List ((String × String) × DashboardCell))
    (pairs : List (String × String)) (rc : String × String)
    (hmem : rc ∈ pairs)
    (hbad : lookupCell content rc = none ∨
      ∃ cell, lookupCell content rc = some cell ∧ cell.graphics = none)
    (hread : ∀ p, fs p ≠ none) :
    ∃ r c, encodePairs fs content pairs =
      Except.error (DashError.keyError r c) := by
  revert hmem
  induction pairs with
  | nil => intro hmem; cases hmem
  | cons p rest ih =>
    intro hmem
    unfold encodePairs
    cases hlp : lookupCell content p with
    | none => exact ⟨p.1, p.2, rfl⟩
    | some cell =>
      dsimp only
      cases hg : cell.graphics with
      | none => exact ⟨p.1, p.2, rfl⟩
      | some gs =>
        dsimp only
        obtain ⟨l, hl⟩ := readCellImages_ok fs gs hread
        rw [hl]
        have hrest : rc ∈ rest := by
          cases List.mem_cons.mp hmem with
          | inl he =>
            exfalso
            rw [he] at hbad
            cases hbad with
            | inl h0 => rw [hlp] at h0; exact absurd h0 (by simp)
            | inr h0 =>
              obtain ⟨cell2, hc2, hg2⟩ := h0
              rw [hlp] at hc2
              simp only [Option.some.injEq] at hc2
              subst hc2
              rw [hg] at hg2
              exact absurd hg2 (by simp)
          | inr h => exact h
        obtain ⟨r, c, hrc⟩ := ih hrest
        rw [hrc]
        exact ⟨r, c, rfl⟩

theorem dashboardPairs_mem (cols rows : List String) (r c : String)
    (hr : r ∈ rows) (hc : c ∈ cols) : (r, c) ∈ dashboardPairs cols rows := by
  unfold dashboardPairs
  rw [List.mem_flatMap]
  exact ⟨c, hc, List.mem_map.mpr ⟨r, hr, rfl⟩⟩

/-- Claim C10: with encode requested, write_dashboard demands every
(row, column) pair of row_names x column_names to be a key of the content
mapping with a graphics entry: one absent pair, or one cell without
graphics, makes the render raise a KeyError (all referenced files being
readable), although the cell fields are documented as optional. -/
theorem dashboard_missing_cell_keyError (fs : String → Option Bytes)
    (cols rows : List String)
    (content : List ((String × String) × DashboardCell))
    (title footnote : String) (r c : String)
    (hr : r ∈ rows) (hc : c ∈ cols)
    (hbad : lookupCell content (r, c) = none ∨
      ∃ cell, lookupCell content (r, c) = some cell ∧ cell.graphics = none)
    (hread : ∀ p, fs p ≠ none) :
    ∃ r' c', htmlTemplateDashboard fs cols rows content title footnote true =
      Except.error (DashError.keyError r' c') := by
  obtain ⟨r', c', he⟩ := encodePairs_keyError fs content
    (dashboardPairs cols rows) (r, c) (dashboardPairs_mem cols rows r c hr hc)
    hbad hread
  refine ⟨r', c', ?_⟩
  unfold htmlTemplateDashboard
  rw [he, if_pos rfl]

/-- Witness for claim C10: a single-cell grid with an empty content
mapping raises a KeyError under encode. -/
theorem dashboard_missing_cell_keyError_witness :
    ∃ r' c', htmlTemplateDashboard (fun _ => some []) [("A")] [("X")] []
      ("t") ("f") true = Except.error (DashError.keyError r' c') :=
  dashboard_missing_cell_keyError (fun _ => some []) [("A")] [("X")] []
    ("t") ("f") ("X") ("A") (by simp) (by simp) (Or.inl rfl)
    (fun p h => Option.noConfusion h)

end PecosIO
